import Mathlib

/-!
Verification development for the RITC arbitrage and hedging engine.

Shallow embedding of the decision logic of the RITC ETF-arbitrage programs
(`etf_ver3.py`, `etf_ver4.py`, `new_ver4.py`, `new_base.py`,
`with_converters.py`, `etf_integrate_stats.py`, `main.py`) and proofs about
the risk limiter, hedge executor, unwind branch, currency rebalancer, edge
calculator, sizing policy, quote sentinels, position map and order guards.

Machine reals are embedded as rationals.  Where a floating-point constant
matters the IEEE-754 value is computed exactly: the double product
`300000 * 0.85` rounds to exactly `255000.0`, so the unwind threshold is
embedded as the rational `300000 * (85/100) = 255000` with no error.
-/

namespace RITC

/-- The five instruments tracked by every program variant. -/
inductive Ticker
  | BULL
  | BEAR
  | RITC
  | USD
  | CAD
deriving DecidableEq, Repr

/-- Order side, the `action` strings `"BUY"` / `"SELL"` of the source. -/
inductive Side
  | BUY
  | SELL
deriving DecidableEq, Repr

/-- A position snapshot: signed integer position per instrument, as read
from `/securities` (positions are `int(...)` in every variant). -/
structure Snapshot where
  bull : ℤ
  bear : ℤ
  ritc : ℤ
  usd : ℤ
  cad : ℤ
deriving DecidableEq, Repr

/-- `MAX_GROSS = 300000` in `etf_ver3.py`, `etf_ver4.py`, `new_ver4.py`,
`with_converters.py`. -/
def MAX_GROSS : ℤ := 300000

/-- `MAX_NET = 200000` in the same variants. -/
def MAX_NET : ℤ := 200000

/-- `sign_qty = qty if action == "BUY" else -qty` (`within_limits`). -/
def signQty (action : Side) (qty : ℤ) : ℤ :=
  match action with
  | Side.BUY => qty
  | Side.SELL => -qty

/-- The projected share triple `(proj_bull, proj_bear, proj_ritc)` of
`within_limits` (`etf_ver3.py:98-137`, `etf_ver4.py`, `new_ver4.py:230-256`,
`with_converters.py:193-234`); the RITC component already carries the 2x
risk multiplier, exactly as `curr_ritc = pos[RITC] * 2` and
`proj_ritc = curr_ritc + (sign_qty * 2)` do in the source.  For the
currency tickers the share positions are unchanged. -/
def projTriple (pos : Snapshot) (ticker : Ticker) (action : Side) (qty : ℤ) :
    ℤ × ℤ × ℤ :=
  let sq := signQty action qty
  match ticker with
  | Ticker.BULL => (pos.bull + sq, pos.bear, pos.ritc * 2)
  | Ticker.BEAR => (pos.bull, pos.bear + sq, pos.ritc * 2)
  | Ticker.RITC => (pos.bull, pos.bear, pos.ritc * 2 + sq * 2)
  | _ => (pos.bull, pos.bear, pos.ritc * 2)

/-- The current (multiplier-weighted) share triple
`(curr_bull, curr_bear, curr_ritc)` of `within_limits`. -/
def currTriple (pos : Snapshot) : ℤ × ℤ × ℤ :=
  (pos.bull, pos.bear, pos.ritc * 2)

/-- `gross = abs(bull) + abs(bear) + abs(ritc)` on a weighted triple. -/
def grossOf (t : ℤ × ℤ × ℤ) : ℤ := |t.1| + |t.2.1| + |t.2.2|

/-- `net = bull + bear + ritc` on a weighted triple. -/
def netOf (t : ℤ × ℤ × ℤ) : ℤ := t.1 + t.2.1 + t.2.2

/-- `within_limits(ticker, action, qty)` of `etf_ver3.py:98-137`; the same
function appears verbatim in `etf_ver4.py`, `new_ver4.py:230-256` and
`with_converters.py:193-234`.  The snapshot is the `positions_map()` read;
the non-empty-snapshot guard (`if not pos: return False`) is factored out
by taking the snapshot as an argument. -/
def within_limits (pos : Snapshot) (ticker : Ticker) (action : Side)
    (qty : ℤ) : Bool :=
  match ticker with
  | Ticker.USD => true
  | Ticker.CAD => true
  | _ =>
    let p := projTriple pos ticker action qty
    let c := currTriple pos
    if grossOf p < MAX_GROSS ∧ -MAX_NET < netOf p ∧ netOf p < MAX_NET then
      true
    else if grossOf p < grossOf c then true
    else if |netOf p| < |netOf c| then true
    else false

/-- The ALLOW predicate exactly as claim C1 words it: rule (a) with the
CLOSED net interval `projected net ∈ [-netCeiling, +netCeiling]`.  Written
from the spec text, to be compared against `within_limits`. -/
def claimedAllowC1 (pos : Snapshot) (ticker : Ticker) (action : Side)
    (qty : ℤ) : Prop :=
  ticker = Ticker.USD ∨ ticker = Ticker.CAD ∨
    (grossOf (projTriple pos ticker action qty) < MAX_GROSS ∧
      -MAX_NET ≤ netOf (projTriple pos ticker action qty) ∧
      netOf (projTriple pos ticker action qty) ≤ MAX_NET) ∨
    grossOf (projTriple pos ticker action qty) < grossOf (currTriple pos) ∨
    |netOf (projTriple pos ticker action qty)| < |netOf (currTriple pos)|

/-- The all-zero snapshot. -/
def zeroSnap : Snapshot := ⟨0, 0, 0, 0, 0⟩

/-- Characterization of the share-instrument branch of `within_limits`:
ALLOW holds exactly when rule (a) (strict gross ceiling and STRICT net
band), rule (b) (gross strictly reduced) or rule (c) (absolute net
strictly reduced) holds. -/
theorem within_limits_share_iff (pos : Snapshot) (tkr : Ticker) (act : Side)
    (qty : ℤ) (h : tkr = Ticker.BULL ∨ tkr = Ticker.BEAR ∨ tkr = Ticker.RITC) :
    within_limits pos tkr act qty = true ↔
      (grossOf (projTriple pos tkr act qty) < MAX_GROSS ∧
        -MAX_NET < netOf (projTriple pos tkr act qty) ∧
        netOf (projTriple pos tkr act qty) < MAX_NET) ∨
      grossOf (projTriple pos tkr act qty) < grossOf (currTriple pos) ∨
      |netOf (projTriple pos tkr act qty)| < |netOf (currTriple pos)| := by
  rcases h with h | h | h <;> subst h <;>
    simp only [within_limits] <;>
    split_ifs with h1 h2 h3 <;> simp_all

/-- Currency legs bypass the limiter: the source returns `True` for any
ticker that is not BULL, BEAR or RITC. -/
theorem within_limits_currency (pos : Snapshot) (tkr : Ticker) (act : Side)
    (qty : ℤ) (h : tkr = Ticker.USD ∨ tkr = Ticker.CAD) :
    within_limits pos tkr act qty = true := by
  rcases h with h | h <;> subst h <;> rfl

/-- C1 counterexample: with a flat book, a BUY of 200000 BULL has projected
net exactly `+MAX_NET`, which the closed interval of the claim
`[-netCeiling, +netCeiling]` admits under rule (a), yet the strict
band `-MAX_NET < net < MAX_NET` rejects it and rules (b), (c) also fail,
so `within_limits` returns DENY. -/
theorem C1_counterexample :
    claimedAllowC1 zeroSnap Ticker.BULL Side.BUY 200000 ∧
    within_limits zeroSnap Ticker.BULL Side.BUY 200000 = false := by
  constructor
  · right; right; left
    refine ⟨by decide, by decide, by decide⟩
  · decide

/-- C1 (amended): `within_limits` returns ALLOW iff the instrument is a
currency (USD or CAD), or rule (a) holds with the projected net in the
OPEN band `(-netCeiling, +netCeiling)`, or the projected gross is strictly
below the current gross, or the absolute projected net is strictly below
the absolute current net. -/
theorem C1_within_limits_allow_iff (pos : Snapshot) (tkr : Ticker)
    (act : Side) (qty : ℤ) :
    within_limits pos tkr act qty = true ↔
      tkr = Ticker.USD ∨ tkr = Ticker.CAD ∨
      (grossOf (projTriple pos tkr act qty) < MAX_GROSS ∧
        -MAX_NET < netOf (projTriple pos tkr act qty) ∧
        netOf (projTriple pos tkr act qty) < MAX_NET) ∨
      grossOf (projTriple pos tkr act qty) < grossOf (currTriple pos) ∨
      |netOf (projTriple pos tkr act qty)| < |netOf (currTriple pos)| := by
  cases tkr
  case USD => simp [within_limits_currency pos Ticker.USD act qty (Or.inl rfl)]
  case CAD => simp [within_limits_currency pos Ticker.CAD act qty (Or.inr rfl)]
  case BULL =>
    rw [within_limits_share_iff pos Ticker.BULL act qty (Or.inl rfl)]
    simp
  case BEAR =>
    rw [within_limits_share_iff pos Ticker.BEAR act qty (Or.inr (Or.inl rfl))]
    simp
  case RITC =>
    rw [within_limits_share_iff pos Ticker.RITC act qty (Or.inr (Or.inr rfl))]
    simp

/-- C2 counterexample: holding 150000 BULL, a BUY of 60000 more BULL is
denied (projected net 210000 breaks the net band, and neither gross nor
absolute net shrinks), yet the projected gross 210000 is strictly below
the 300000 gross ceiling — refuting the claimed consequent
`projected_gross ≥ ceiling`. -/
theorem C2_counterexample :
    within_limits ⟨150000, 0, 0, 0, 0⟩ Ticker.BULL Side.BUY 60000 = false ∧
    grossOf (projTriple ⟨150000, 0, 0, 0, 0⟩ Ticker.BULL Side.BUY 60000) <
      MAX_GROSS := by
  constructor
  · decide
  · decide

/-- C2 (amended): a DENY on a share instrument implies that the projected
position breaks the static limits (projected gross ≥ gross ceiling OR
absolute projected net ≥ net ceiling), AND the projected gross is at least
the current gross, AND the absolute projected net is at least the absolute
current net. -/
theorem C2_deny_bounds (pos : Snapshot) (tkr : Ticker) (act : Side)
    (qty : ℤ)
    (hshare : tkr = Ticker.BULL ∨ tkr = Ticker.BEAR ∨ tkr = Ticker.RITC)
    (hdeny : within_limits pos tkr act qty = false) :
    (MAX_GROSS ≤ grossOf (projTriple pos tkr act qty) ∨
      MAX_NET ≤ |netOf (projTriple pos tkr act qty)|) ∧
    grossOf (currTriple pos) ≤ grossOf (projTriple pos tkr act qty) ∧
    |netOf (currTriple pos)| ≤ |netOf (projTriple pos tkr act qty)| := by
  have hiff := within_limits_share_iff pos tkr act qty hshare
  rw [hdeny] at hiff
  simp only [Bool.false_eq_true, false_iff] at hiff
  push_neg at hiff
  obtain ⟨ha, hb, hc⟩ := hiff
  refine ⟨?_, hb, hc⟩
  by_cases hg : grossOf (projTriple pos tkr act qty) < MAX_GROSS
  · right
    rcases abs_cases (netOf (projTriple pos tkr act qty)) with ⟨he, _⟩ | ⟨he, _⟩ <;>
      rw [he] <;>
      rcases lt_or_le (-MAX_NET) (netOf (projTriple pos tkr act qty)) with hn | hn
    · exact ha hg hn
    · omega
    · have := ha hg hn
      omega
    · omega
  · left
    omega

/-- C2 witness: the amended theorem applied to a concrete denied trade
(BUY 400000 BULL on a flat book). -/
theorem C2_deny_bounds_witness :
    (MAX_GROSS ≤ grossOf (projTriple zeroSnap Ticker.BULL Side.BUY 400000) ∨
      MAX_NET ≤ |netOf (projTriple zeroSnap Ticker.BULL Side.BUY 400000)|) ∧
    grossOf (currTriple zeroSnap) ≤
      grossOf (projTriple zeroSnap Ticker.BULL Side.BUY 400000) ∧
    |netOf (currTriple zeroSnap)| ≤
      |netOf (projTriple zeroSnap Ticker.BULL Side.BUY 400000)| :=
  C2_deny_bounds zeroSnap Ticker.BULL Side.BUY 400000 (Or.inl rfl) (by decide)

/-- `MAX_ORDER = 10000`, the venue per-order ceiling used by
`force_hedge_trade` in `new_ver4.py:99-122` (and `MAX_TRADE_SIZE` in
`config.py`). -/
def MAX_ORDER : ℕ := 10000

/-- The retry budget: `for i in range(5)` in `force_hedge_trade`. -/
def HEDGE_RETRIES : ℕ := 5

/-- The retry loop of one sub-order of `force_hedge_trade`
(`new_ver4.py:99-122`, and the retry pattern of `etf_ver3.py:84-96`).
`res i` is the venue outcome of the `i`-th `place_mkt` submission of this
sub-order, `f` the remaining budget.  Returns the success flag together
with the number of submissions actually made; the loop breaks at the
first success. -/
def retryAux (res : ℕ → Bool) : ℕ → ℕ → Bool × ℕ
  | _, 0 => (false, 0)
  | i, f + 1 =>
    if res i then (true, 1)
    else
      let p := retryAux res (i + 1) f
      (p.1, p.2 + 1)

/-- The full `for i in range(5)` retry loop, starting at attempt 0. -/
def retrySubmit (res : ℕ → Bool) : Bool × ℕ := retryAux res 0 HEDGE_RETRIES

/-- The chunking loop of `force_hedge_trade` (`new_ver4.py:99-122`):
`remaining` shares still to hedge, `c` the index of the current sub-order
(chunk), `res c i` the outcome of the `i`-th submission attempt of chunk
`c`.  `chunk = min(remaining, MAX_ORDER)`; a chunk whose whole retry
budget fails aborts with `False`; `remaining = 0` returns `True`. -/
def fhtAux (res : ℕ → ℕ → Bool) (c : ℕ) (remaining : ℕ) : Bool :=
  if _h : remaining = 0 then true
  else if (retrySubmit (res c)).1 then
    fhtAux res (c + 1) (remaining - min remaining MAX_ORDER)
  else false
termination_by remaining
decreasing_by simp only [MAX_ORDER]; omega

/-- `force_hedge_trade(ticker, action, qty)` of `new_ver4.py:99-122`,
abstracted over the per-submission venue outcomes `res`. -/
def force_hedge_trade (res : ℕ → ℕ → Bool) (qty : ℕ) : Bool :=
  fhtAux res 0 qty

/-- The number of sub-orders the chunking loop performs for `qty` shares:
the ceiling of `qty / MAX_ORDER`. -/
def numChunks (qty : ℕ) : ℕ := (qty + (MAX_ORDER - 1)) / MAX_ORDER

/-- The successive `chunk = min(remaining, MAX_ORDER)` sizes submitted by
the chunking loop. -/
def chunkSizes (qty : ℕ) : List ℕ :=
  if _h : qty = 0 then []
  else min qty MAX_ORDER :: chunkSizes (qty - min qty MAX_ORDER)
termination_by qty
decreasing_by simp only [MAX_ORDER]; omega

theorem retryAux_succ (res : ℕ → Bool) (i f : ℕ) :
    retryAux res i (f + 1) =
      if res i then (true, 1)
      else ((retryAux res (i + 1) f).1, (retryAux res (i + 1) f).2 + 1) := by
  simp only [retryAux]

theorem retryAux_true_iff (res : ℕ → Bool) :
    ∀ f i, (retryAux res i f).1 = true ↔ ∃ j, j < f ∧ res (i + j) = true := by
  intro f
  induction f with
  | zero => intro i; simp [retryAux]
  | succ f ih =>
    intro i
    rw [retryAux_succ]
    by_cases h : res i = true
    · rw [if_pos h]
      constructor
      · intro _; exact ⟨0, Nat.succ_pos f, by simpa using h⟩
      · intro _; rfl
    · rw [if_neg h]
      have hiff := ih (i + 1)
      constructor
      · intro hfl
        rcases hiff.mp hfl with ⟨j, hj, hres⟩
        exact ⟨j + 1, by omega,
          by rw [show i + (j + 1) = i + 1 + j by omega]; exact hres⟩
      · rintro ⟨j, hj, hres⟩
        match j with
        | 0 => exact absurd (by simpa using hres) h
        | j + 1 =>
          exact hiff.mpr ⟨j, by omega,
            by rw [show i + 1 + j = i + (j + 1) by omega]; exact hres⟩

theorem retryAux_count_le (res : ℕ → Bool) :
    ∀ f i, (retryAux res i f).2 ≤ f := by
  intro f
  induction f with
  | zero => intro i; simp [retryAux]
  | succ f ih =>
    intro i
    rw [retryAux_succ]
    by_cases h : res i = true
    · rw [if_pos h]; show 1 ≤ f + 1; omega
    · rw [if_neg h]
      show (retryAux res (i + 1) f).2 + 1 ≤ f + 1
      have := ih (i + 1)
      omega

theorem retryAux_first_success (res : ℕ → Bool) :
    ∀ f i k, k < f → res (i + k) = true → (∀ j, j < k → res (i + j) = false) →
      (retryAux res i f).2 = k + 1 ∧ (retryAux res i f).1 = true := by
  intro f
  induction f with
  | zero => intro i k hk; omega
  | succ f ih =>
    intro i k hk hres hbefore
    rw [retryAux_succ]
    match k with
    | 0 =>
      have h : res i = true := by simpa using hres
      rw [if_pos h]
      exact ⟨rfl, rfl⟩
    | k + 1 =>
      have h : res i = false := by simpa using hbefore 0 (Nat.succ_pos k)
      rw [if_neg (by simp [h])]
      have hres2 : res (i + 1 + k) = true := by
        rw [show i + 1 + k = i + (k + 1) by omega]; exact hres
      have hbefore2 : ∀ j, j < k → res (i + 1 + j) = false := by
        intro j hj
        rw [show i + 1 + j = i + (j + 1) by omega]
        exact hbefore (j + 1) (by omega)
      have hih := ih (i + 1) k (by omega) hres2 hbefore2
      refine ⟨?_, hih.2⟩
      show (retryAux res (i + 1) f).2 + 1 = k + 1 + 1
      have := hih.1
      omega

theorem retryAux_count_exhausted (res : ℕ → Bool) :
    ∀ f i, (retryAux res i f).1 = false → (retryAux res i f).2 = f := by
  intro f
  induction f with
  | zero => intro i _; simp [retryAux]
  | succ f ih =>
    intro i hflag
    rw [retryAux_succ] at hflag ⊢
    by_cases h : res i = true
    · rw [if_pos h] at hflag
      exact absurd hflag (by simp)
    · rw [if_neg h] at hflag ⊢
      have hinner : (retryAux res (i + 1) f).1 = false := hflag
      have := ih (i + 1) hinner
      show (retryAux res (i + 1) f).2 + 1 = f + 1
      omega

theorem numChunks_zero : numChunks 0 = 0 := by decide

theorem numChunks_pos (qty : ℕ) (h : qty ≠ 0) : 0 < numChunks qty := by
  simp only [numChunks, MAX_ORDER]
  omega

theorem numChunks_step (qty : ℕ) (h : qty ≠ 0) :
    numChunks qty = numChunks (qty - min qty MAX_ORDER) + 1 := by
  simp only [numChunks, MAX_ORDER]
  omega

theorem fhtAux_true_iff (res : ℕ → ℕ → Bool) :
    ∀ remaining c, fhtAux res c remaining = true ↔
      ∀ k, k < numChunks remaining → (retrySubmit (res (c + k))).1 = true := by
  intro remaining
  induction remaining using Nat.strong_induction_on with
  | _ remaining ih =>
    intro c
    rw [fhtAux]
    by_cases h0 : remaining = 0
    · simp [h0, numChunks_zero]
    · simp only [h0, dite_false]
      by_cases hr : (retrySubmit (res c)).1 = true
      · rw [if_pos hr]
        have hlt : remaining - min remaining MAX_ORDER < remaining := by
          simp only [MAX_ORDER]; omega
        rw [ih _ hlt (c + 1), numChunks_step remaining h0]
        constructor
        · intro H k hk
          match k with
          | 0 => simpa using hr
          | k + 1 =>
            rw [show c + (k + 1) = c + 1 + k by omega]
            exact H k (by omega)
        · intro H k hk
          rw [show c + 1 + k = c + (k + 1) by omega]
          exact H (k + 1) (by omega)
      · rw [if_neg hr]
        simp only [Bool.false_eq_true, false_iff]
        intro H
        exact hr (by simpa using H 0 (numChunks_pos remaining h0))

theorem chunkSizes_bounds (qty : ℕ) :
    ∀ c ∈ chunkSizes qty, 0 < c ∧ c ≤ MAX_ORDER := by
  induction qty using Nat.strong_induction_on with
  | _ qty ih =>
    rw [chunkSizes]
    by_cases h0 : qty = 0
    · simp [h0]
    · simp only [h0, dite_false, List.mem_cons]
      rintro c (rfl | hc)
      · simp only [MAX_ORDER]; omega
      · exact ih (qty - min qty MAX_ORDER) (by simp only [MAX_ORDER]; omega) c hc

theorem chunkSizes_sum (qty : ℕ) : (chunkSizes qty).sum = qty := by
  induction qty using Nat.strong_induction_on with
  | _ qty ih =>
    rw [chunkSizes]
    by_cases h0 : qty = 0
    · simp [h0]
    · simp only [h0, dite_false, List.sum_cons]
      rw [ih (qty - min qty MAX_ORDER) (by simp only [MAX_ORDER]; omega)]
      omega

theorem chunkSizes_length (qty : ℕ) :
    (chunkSizes qty).length = numChunks qty := by
  induction qty using Nat.strong_induction_on with
  | _ qty ih =>
    rw [chunkSizes]
    by_cases h0 : qty = 0
    · simp [h0, numChunks_zero]
    · simp only [h0, dite_false, List.length_cons]
      rw [ih (qty - min qty MAX_ORDER) (by simp only [MAX_ORDER]; omega),
        numChunks_step qty h0]

/-- C3: for every positive hedge quantity, the chunking loop splits it
into sub-orders that are positive, at most the 10000 per-order ceiling,
and sum back to the quantity, with exactly `ceil(qty / 10000)` of them;
each sub-order is submitted at most 5 times, stops immediately at its
first success (a first success at attempt `i` means exactly `i + 1`
submissions), and a failed sub-order consumes its whole budget of 5;
`force_hedge_trade` returns true exactly when every sub-order succeeds
within its budget, and false only when some sub-order exhausts all 5
submissions without success. -/
theorem C3_force_hedge_trade_spec (res : ℕ → ℕ → Bool) (qty : ℕ)
    (_hq : 0 < qty) :
    (∀ c ∈ chunkSizes qty, 0 < c ∧ c ≤ MAX_ORDER) ∧
    (chunkSizes qty).sum = qty ∧
    (chunkSizes qty).length = numChunks qty ∧
    (∀ f : ℕ → Bool,
      (retrySubmit f).2 ≤ HEDGE_RETRIES ∧
      ((retrySubmit f).1 = true ↔ ∃ i, i < HEDGE_RETRIES ∧ f i = true) ∧
      (∀ i, i < HEDGE_RETRIES → f i = true → (∀ j, j < i → f j = false) →
        (retrySubmit f).2 = i + 1 ∧ (retrySubmit f).1 = true) ∧
      ((retrySubmit f).1 = false → (retrySubmit f).2 = HEDGE_RETRIES)) ∧
    (force_hedge_trade res qty = true ↔
      ∀ c, c < numChunks qty → ∃ i, i < HEDGE_RETRIES ∧ res c i = true) ∧
    (force_hedge_trade res qty = false →
      ∃ c, c < numChunks qty ∧ ∀ i, i < HEDGE_RETRIES → res c i = false) := by
  have hiff : force_hedge_trade res qty = true ↔
      ∀ c, c < numChunks qty → ∃ i, i < HEDGE_RETRIES ∧ res c i = true := by
    rw [force_hedge_trade, fhtAux_true_iff res qty 0]
    constructor
    · intro H c hc
      have := (retryAux_true_iff (res c) HEDGE_RETRIES 0).mp (by simpa using H c hc)
      simpa using this
    · intro H k hk
      have := (retryAux_true_iff (res k) HEDGE_RETRIES 0).mpr (by simpa using H k hk)
      simpa [retrySubmit] using this
  refine ⟨chunkSizes_bounds qty, chunkSizes_sum qty, chunkSizes_length qty,
    ?_, hiff, ?_⟩
  · intro f
    refine ⟨retryAux_count_le f HEDGE_RETRIES 0, ?_, ?_, ?_⟩
    · rw [retrySubmit, retryAux_true_iff f HEDGE_RETRIES 0]
      simp
    · intro i hi hsucc hbefore
      exact retryAux_first_success f HEDGE_RETRIES 0 i hi (by simpa using hsucc)
        (by simpa using hbefore)
    · exact retryAux_count_exhausted f HEDGE_RETRIES 0
  · intro hfalse
    by_contra hnone
    push_neg at hnone
    simp only [Bool.not_eq_false] at hnone
    have : force_hedge_trade res qty = true := by
      rw [hiff]
      intro c hc
      rcases hnone c hc with ⟨i, hi, hres⟩
      exact ⟨i, hi, hres⟩
    rw [this] at hfalse
    exact absurd hfalse (by simp)

/-- A mock gateway for the C3 witness: sub-order `c` succeeds on its
`c`-th submission attempt. -/
def mockGateway : ℕ → ℕ → Bool := fun c i => c == i

/-- C3 witness: the theorem applied at quantity 25000 with the mock
gateway (chunks 10000, 10000, 5000 succeed on attempts 0, 1, 2). -/
theorem C3_force_hedge_trade_spec_witness :
    force_hedge_trade mockGateway 25000 = true := by
  have h := C3_force_hedge_trade_spec mockGateway 25000 (by decide)
  exact h.2.2.2.2.1.mpr (by decide)

/-- `MAX_GROSS` as a rational, for the float comparison in `main`. -/
def MAX_GROSS_Q : ℚ := 300000

/-- `UNWIND_TRIGGER = 0.85`.  The IEEE-754 double product
`300000 * 0.85` rounds to exactly `255000.0`, which coincides with the
exact rational product `300000 * (85/100)`, so the embedded threshold is
bit-for-bit the one the program compares against. -/
def UNWIND_TRIGGER : ℚ := 85 / 100

/-- The per-cycle branch of `main` (`etf_ver4.py:248-254`,
`new_ver4.py:345-351`): `true` means the cycle calls `attempt_unwind`
(UNWINDING), `false` means it calls `process_tender_offers` (NORMAL).
`gross` is the integer `get_gross_usage()`; the branch condition is
`gross_usage > (MAX_GROSS * UNWIND_TRIGGER)` and carries no state. -/
def main_cycle_unwinds (gross : ℤ) : Bool :=
  decide (MAX_GROSS_Q * UNWIND_TRIGGER < (gross : ℚ))

theorem main_cycle_unwinds_true_iff (x : ℤ) :
    main_cycle_unwinds x = true ↔ MAX_GROSS_Q * UNWIND_TRIGGER < (x : ℚ) := by
  simp [main_cycle_unwinds]

theorem main_cycle_unwinds_false_iff (x : ℤ) :
    main_cycle_unwinds x = false ↔ (x : ℚ) ≤ MAX_GROSS_Q * UNWIND_TRIGGER := by
  simp [main_cycle_unwinds, not_lt]

/-- C4 counterexample: gross 260000 unwinds, but the very next cycle with
gross exactly `trigger x ceiling = 255000` processes tenders again (the
NORMAL branch), so the controller does NOT stay in UNWINDING at the
boundary; it exits at the line, not strictly below it. -/
theorem C4_counterexample :
    main_cycle_unwinds 260000 = true ∧
    (255000 : ℚ) = MAX_GROSS_Q * UNWIND_TRIGGER ∧
    main_cycle_unwinds 255000 = false := by
  refine ⟨?_, ?_, ?_⟩
  · rw [main_cycle_unwinds_true_iff]
    norm_num [MAX_GROSS_Q, UNWIND_TRIGGER]
  · norm_num [MAX_GROSS_Q, UNWIND_TRIGGER]
  · rw [main_cycle_unwinds_false_iff]
    norm_num [MAX_GROSS_Q, UNWIND_TRIGGER]

/-- C4 (amended): the unwind branch is stateless.  For every per-cycle
gross sequence, a cycle is UNWINDING iff its gross strictly exceeds
`trigger x ceiling` (= 255000 exactly, also under the float
arithmetic); it therefore enters UNWINDING only when gross crosses the
line from at-or-below, and it reverts to NORMAL as soon as gross is at or
below the line — including when gross equals the line exactly. -/
theorem C4_unwind_branch_stateless (g : ℕ → ℤ) (n : ℕ) :
    (main_cycle_unwinds (g n) = true ↔
      MAX_GROSS_Q * UNWIND_TRIGGER < (g n : ℚ)) ∧
    (main_cycle_unwinds (g n) = false →
      main_cycle_unwinds (g (n + 1)) = true →
      (g n : ℚ) ≤ MAX_GROSS_Q * UNWIND_TRIGGER ∧
        MAX_GROSS_Q * UNWIND_TRIGGER < (g (n + 1) : ℚ)) ∧
    (main_cycle_unwinds (g n) = true →
      main_cycle_unwinds (g (n + 1)) = false →
      (g (n + 1) : ℚ) ≤ MAX_GROSS_Q * UNWIND_TRIGGER) := by
  refine ⟨main_cycle_unwinds_true_iff (g n), ?_, ?_⟩
  · intro h1 h2
    exact ⟨(main_cycle_unwinds_false_iff (g n)).mp h1,
      (main_cycle_unwinds_true_iff (g (n + 1))).mp h2⟩
  · intro _ h2
    exact (main_cycle_unwinds_false_iff (g (n + 1))).mp h2

/-- A concrete gross sequence for the C4 witness: 260000 then 254000. -/
def grossSeqW : ℕ → ℤ := fun n => if n = 0 then 260000 else 254000

/-- C4 witness: the amended theorem applied to `grossSeqW` at cycle 0. -/
theorem C4_unwind_branch_stateless_witness :
    ((grossSeqW 1 : ℤ) : ℚ) ≤ MAX_GROSS_Q * UNWIND_TRIGGER :=
  (C4_unwind_branch_stateless grossSeqW 0).2.2
    (by
      rw [show grossSeqW 0 = 260000 from rfl, main_cycle_unwinds_true_iff]
      norm_num [MAX_GROSS_Q, UNWIND_TRIGGER])
    (by
      rw [show grossSeqW (0 + 1) = 254000 from rfl, main_cycle_unwinds_false_iff]
      norm_num [MAX_GROSS_Q, UNWIND_TRIGGER])

/-- An order submission as posted to `/orders`: quantity is the `int(qty)`
the source sends; `price` is set for LIMIT orders, absent for MARKET. -/
structure Order where
  ticker : Ticker
  action : Side
  qty : ℤ
  price : Option ℚ
deriving DecidableEq, Repr

/-- `HEDGE_DRIFT_LIMIT = 2000` (`etf_ver4.py`, `new_ver4.py`). -/
def HEDGE_DRIFT_LIMIT : ℚ := 2000

/-- The drift of `rebalance_currency_hedge` (`etf_ver4.py:108-144`):
`mid = (bid + ask) / 2`, `target = -(ritc_pos * mid)`,
`drift = target - usd_pos`. -/
def rebalance_drift (ritc_pos usd_pos : ℤ) (bid ask : ℚ) : ℚ :=
  -((ritc_pos : ℚ) * ((bid + ask) / 2)) - (usd_pos : ℚ)

/-- `rebalance_currency_hedge` of `etf_ver4.py:108-144`, as the list of
USD market orders it submits.  `place_mkt` truncates the quantity with
`int(qty)`; its `qty <= 0` guard cannot fire here because
`abs(drift) > 2000`. -/
def rebalance_currency_hedge (ritc_pos usd_pos : ℤ) (bid ask : ℚ) :
    List Order :=
  let drift := rebalance_drift ritc_pos usd_pos bid ask
  if |drift| > HEDGE_DRIFT_LIMIT then
    if drift > 0 then [⟨Ticker.USD, Side.BUY, ⌊|drift|⌋, none⟩]
    else [⟨Ticker.USD, Side.SELL, ⌊|drift|⌋, none⟩]
  else []

/-- C5 counterexample: in the very scenario of the claim (composite +12000,
composite mid 20.0, currency position 0) the code emits exactly one SELL
order for the full 240000 — a single order whose quantity exceeds the
10000 per-order ceiling, i.e. NOT chunked per the venue ceiling as the
claim asserts. -/
theorem C5_counterexample :
    rebalance_currency_hedge 12000 0 20 20 =
      [⟨Ticker.USD, Side.SELL, 240000, none⟩] ∧
    MAX_ORDER < 240000 := by
  have hdrift : rebalance_drift 12000 0 20 20 = -240000 := by
    norm_num [rebalance_drift]
  have hd : rebalance_currency_hedge 12000 0 20 20 =
      if |rebalance_drift 12000 0 20 20| > HEDGE_DRIFT_LIMIT then
        (if rebalance_drift 12000 0 20 20 > 0 then
          [⟨Ticker.USD, Side.BUY, ⌊|rebalance_drift 12000 0 20 20|⌋, none⟩]
        else
          [⟨Ticker.USD, Side.SELL, ⌊|rebalance_drift 12000 0 20 20|⌋, none⟩])
      else [] := rfl
  have habs : |(-240000 : ℚ)| = 240000 := by
    rw [abs_neg]
    exact abs_of_pos (by norm_num)
  constructor
  · rw [hd, hdrift, habs]
    rw [if_pos (by norm_num [HEDGE_DRIFT_LIMIT]), if_neg (by norm_num)]
    norm_num
  · decide

/-- C5 (amended): each cycle the rebalancer submits a corrective currency
order iff `|drift|` exceeds the 2000 tolerance, and then it submits
exactly one market order — BUY if drift > 0, SELL otherwise — for the
(truncated) quantity `|drift|`, as a single unchunked order. -/
theorem C5_rebalance_spec (rp up : ℤ) (bid ask : ℚ) :
    (rebalance_currency_hedge rp up bid ask = [] ↔
      |rebalance_drift rp up bid ask| ≤ HEDGE_DRIFT_LIMIT) ∧
    (HEDGE_DRIFT_LIMIT < |rebalance_drift rp up bid ask| →
      rebalance_currency_hedge rp up bid ask =
        [⟨Ticker.USD,
          if 0 < rebalance_drift rp up bid ask then Side.BUY else Side.SELL,
          ⌊|rebalance_drift rp up bid ask|⌋, none⟩]) := by
  have hd : rebalance_currency_hedge rp up bid ask =
      if |rebalance_drift rp up bid ask| > HEDGE_DRIFT_LIMIT then
        (if rebalance_drift rp up bid ask > 0 then
          [⟨Ticker.USD, Side.BUY, ⌊|rebalance_drift rp up bid ask|⌋, none⟩]
        else
          [⟨Ticker.USD, Side.SELL, ⌊|rebalance_drift rp up bid ask|⌋, none⟩])
      else [] := rfl
  rw [hd]
  by_cases h1 : |rebalance_drift rp up bid ask| > HEDGE_DRIFT_LIMIT
  · rw [if_pos h1]
    constructor
    · by_cases h2 : rebalance_drift rp up bid ask > 0
      · simp only [if_pos h2]
        simp only [List.cons_ne_nil, false_iff, not_le]
        exact h1
      · simp only [if_neg h2]
        simp only [List.cons_ne_nil, false_iff, not_le]
        exact h1
    · intro _
      by_cases h2 : rebalance_drift rp up bid ask > 0
      · simp only [if_pos h2]
      · simp only [if_neg h2]
  · rw [if_neg h1]
    constructor
    · simp only [true_iff]
      exact not_lt.mp h1
    · intro hc
      exact absurd hc h1

/-- C5 witness: the amended theorem applied to Scenario C of the claim
(composite +12000, mid 20, currency 0), where the drift is -240000. -/
theorem C5_rebalance_spec_witness :
    rebalance_currency_hedge 12000 0 20 20 =
      [⟨Ticker.USD,
        if 0 < rebalance_drift 12000 0 20 20 then Side.BUY else Side.SELL,
        ⌊|rebalance_drift 12000 0 20 20|⌋, none⟩] :=
  (C5_rebalance_spec 12000 0 20 20).2
    (by
      rw [show rebalance_drift 12000 0 20 20 = -240000 from by
        norm_num [rebalance_drift]]
      rw [show |(-240000 : ℚ)| = 240000 from by
        rw [abs_neg]; exact abs_of_pos (by norm_num)]
      norm_num [HEDGE_DRIFT_LIMIT])

/-- `edge1 = basket_sell_value - ritc_ask_cad`
(`new_base.py:160-175`; `edge_buy` in `main.py:37-51`): profit from
selling the basket and buying the composite, with
`ritc_ask_cad = ritc_ask_usd * usd_ask`. -/
def edge1 (bull_bid bear_bid ritc_ask usd_ask : ℚ) : ℚ :=
  (bull_bid + bear_bid) - ritc_ask * usd_ask

/-- `edge2 = ritc_bid_cad - basket_buy_cost` (`new_base.py:160-175`;
`edge_sell` in `main.py:37-51`), with `ritc_bid_cad = ritc_bid_usd * usd_bid`. -/
def edge2 (ritc_bid usd_bid bull_ask bear_ask : ℚ) : ℚ :=
  ritc_bid * usd_bid - (bull_ask + bear_ask)

/-- C6 counterexample: with all four prices 1, edge1 is 1; doubling every
price gives edge1 = (2+2) - 2*2 = 0, not 2 — the composite leg is a
product of two prices, so uniform scaling acts quadratically on it. -/
theorem C6_counterexample :
    edge1 (2 * 1) (2 * 1) (2 * 1) (2 * 1) ≠ 2 * edge1 1 1 1 1 := by
  norm_num [edge1]

/-- C6 (amended): scaling the prices of the two components and of the composite
by a positive constant k while leaving the currency quotes unchanged
multiplies both edges by exactly k. -/
theorem C6_edges_scale_shares (k b1 b2 ra ua rb ub a1 a2 : ℚ)
    (_hk : 0 < k) :
    edge1 (k * b1) (k * b2) (k * ra) ua = k * edge1 b1 b2 ra ua ∧
    edge2 (k * rb) ub (k * a1) (k * a2) = k * edge2 rb ub a1 a2 := by
  constructor <;> simp only [edge1, edge2] <;> ring

/-- C6 witness: the amended theorem at k = 3 on concrete quotes. -/
theorem C6_edges_scale_shares_witness :
    edge1 (3 * 10) (3 * 9) (3 * 6) 2 = 3 * edge1 10 9 6 2 :=
  (C6_edges_scale_shares 3 10 9 6 2 5 7 8 11 (by norm_num)).1

/-- Tier thresholds of `etf_integrate_stats.py` (lines 31-44). -/
def TIER_1_EDGE : ℚ := 4 / 100

def TIER_2_EDGE : ℚ := 8 / 100

def TIER_3_EDGE : ℚ := 15 / 100

def TIER_4_EDGE : ℚ := 25 / 100

def TIER_1_QTY : ℕ := 1000

def TIER_2_QTY : ℕ := 3000

def TIER_3_QTY : ℕ := 6000

def TIER_4_QTY : ℕ := 10000

/-- `get_dynamic_qty(edge)` of `etf_integrate_stats.py:167-182`: tier
table on `abs(edge)`, evaluated highest threshold first, first match
wins, quantity 0 below the lowest tier. -/
def get_dynamic_qty (edge : ℚ) : ℕ × String :=
  let abs_edge := |edge|
  if abs_edge ≥ TIER_4_EDGE then (TIER_4_QTY, "SUPER EXTREME")
  else if abs_edge ≥ TIER_3_EDGE then (TIER_3_QTY, "EXTREME")
  else if abs_edge ≥ TIER_2_EDGE then (TIER_2_QTY, "AGGRESSIVE")
  else if abs_edge ≥ TIER_1_EDGE then (TIER_1_QTY, "STANDARD")
  else (0, "NO TRADE")

/-- C7: the sizing policy is monotonically non-decreasing in the absolute
edge, and returns quantity 0 for any edge strictly below the lowest tier
threshold 0.04. -/
theorem C7_sizing_monotone :
    (∀ e1 e2 : ℚ, |e1| ≤ |e2| →
      (get_dynamic_qty e1).1 ≤ (get_dynamic_qty e2).1) ∧
    (∀ e : ℚ, |e| < TIER_1_EDGE → (get_dynamic_qty e).1 = 0) := by
  constructor
  · intro e1 e2 h
    simp only [get_dynamic_qty]
    split_ifs <;>
      simp_all only [not_le, TIER_1_EDGE, TIER_2_EDGE, TIER_3_EDGE,
        TIER_4_EDGE, TIER_1_QTY, TIER_2_QTY, TIER_3_QTY, TIER_4_QTY] <;>
      first
        | omega
        | (exfalso; linarith)
  · intro e he
    simp only [TIER_1_EDGE] at he
    simp only [get_dynamic_qty]
    rw [if_neg (by simp only [TIER_4_EDGE, not_le]; linarith),
      if_neg (by simp only [TIER_3_EDGE, not_le]; linarith),
      if_neg (by simp only [TIER_2_EDGE, not_le]; linarith),
      if_neg (by simp only [TIER_1_EDGE, not_le]; linarith)]

/-- C7 witness: the theorem applied at edges 0.01 and 0.5. -/
theorem C7_sizing_monotone_witness :
    (get_dynamic_qty (1 / 100)).1 ≤ (get_dynamic_qty (1 / 2)).1 ∧
    (get_dynamic_qty (1 / 100)).1 = 0 :=
  ⟨C7_sizing_monotone.1 (1 / 100) (1 / 2)
      (by
        rw [abs_of_pos (show (0 : ℚ) < 1 / 100 by norm_num),
          abs_of_pos (show (0 : ℚ) < 1 / 2 by norm_num)]
        norm_num),
    C7_sizing_monotone.2 (1 / 100)
      (by
        rw [abs_of_pos (show (0 : ℚ) < 1 / 100 by norm_num)]
        norm_num [TIER_1_EDGE])⟩

/-- The large finite sentinel `1e12` returned for a missing ask price. -/
def SENTINEL_ASK : ℚ := 10 ^ 12

/-- `best_bid_ask(ticker)` of `new_base.py:51-60` (identical in
`etf_ver3.py`, `etf_ver4.py`, `new_ver4.py`): the fetched book is `none`
on a failed request and `some (bids, asks)` with the price lists
otherwise; `bid = bids[0] if bids else 0.0`,
`ask = asks[0] if asks else 1e12`, and the exception handler also yields
`(0.0, 1e12)`. -/
def best_bid_ask (book : Option (List ℚ × List ℚ)) : ℚ × ℚ :=
  match book with
  | none => (0, SENTINEL_ASK)
  | some (bids, asks) => (bids.headD 0, asks.headD SENTINEL_ASK)

/-- `ARB_THRESHOLD_CAD = 0.10` in `new_base.py`. -/
def ARB_THRESHOLD_CAD : ℚ := 10 / 100

/-- The two arbitrage directions of `step_once`. -/
inductive ArbTrade
  | buyComposite
  | sellComposite
deriving DecidableEq, Repr

/-- The trade decision of `step_once` (`new_base.py:160-199`): direction 1
(sell basket, buy composite) when `edge1` reaches the threshold, else
direction 2 when `edge2` does; `limits_ok` abstracts the `within_limits()`
gate evaluated in the same conditions. -/
def step_once_decision (bull bear ritc usd : ℚ × ℚ) (limits_ok : Bool) :
    Option ArbTrade :=
  let e1 := edge1 bull.1 bear.1 ritc.2 usd.2
  let e2 := edge2 ritc.1 usd.1 bull.2 bear.2
  if e1 ≥ ARB_THRESHOLD_CAD ∧ limits_ok = true then some ArbTrade.buyComposite
  else if e2 ≥ ARB_THRESHOLD_CAD ∧ limits_ok = true then
    some ArbTrade.sellComposite
  else none

/-- C8 counterexample: the BULL quote is the failure sentinel `(0, 1e12)`,
yet with BEAR bid 30 and composite/currency quotes 19.40/19.45 and
1.350/1.351 the buy-composite edge is about 3.72 ≥ 0.10 and `step_once`
triggers a trade — an edge computed against a sentinel quote IS
profitable, refuting the never-profitable part of the claim (and the
sentinel ask is the finite 1e12, not +infinity). -/
theorem C8_counterexample :
    best_bid_ask none = (0, SENTINEL_ASK) ∧
    step_once_decision (best_bid_ask none) (30, 31) (97 / 5, 389 / 20)
      (27 / 20, 1351 / 1000) true = some ArbTrade.buyComposite := by
  constructor
  · rfl
  · simp only [step_once_decision]
    rw [if_pos]
    constructor
    · show ARB_THRESHOLD_CAD ≤ edge1 (best_bid_ask none).1 30 (389 / 20) (1351 / 1000)
      norm_num [edge1, best_bid_ask, ARB_THRESHOLD_CAD]
    · trivial

/-- C8 (amended): quote failures and empty book sides yield the sentinel
pair bid 0 / ask `1e12` (a large finite stand-in for +infinity) instead of
an error; and any edge in which a sentinel ask enters as a purchase price
is below the arbitrage threshold, provided the non-sentinel prices are
realistic (at most `1e6`, currency and composite asks at least `1/1000`,
prices non-negative).  A sentinel bid of 0 on a component merely lowers
`edge1` and does not by itself suppress that edge. -/
theorem C8_sentinel_suppression :
    best_bid_ask none = (0, SENTINEL_ASK) ∧
    (∀ asks : List ℚ, (best_bid_ask (some ([], asks))).1 = 0) ∧
    (∀ bids : List ℚ, (best_bid_ask (some (bids, []))).2 = SENTINEL_ASK) ∧
    (∀ b1 b2 ua : ℚ, b1 ≤ 10 ^ 6 → b2 ≤ 10 ^ 6 → 1 / 1000 ≤ ua →
      edge1 b1 b2 SENTINEL_ASK ua < ARB_THRESHOLD_CAD) ∧
    (∀ b1 b2 ra : ℚ, b1 ≤ 10 ^ 6 → b2 ≤ 10 ^ 6 → 1 / 1000 ≤ ra →
      edge1 b1 b2 ra SENTINEL_ASK < ARB_THRESHOLD_CAD) ∧
    (∀ rb ub a2 : ℚ, 0 ≤ rb → rb ≤ 10 ^ 6 → 0 ≤ ub → ub ≤ 10 ^ 6 → 0 ≤ a2 →
      edge2 rb ub SENTINEL_ASK a2 < ARB_THRESHOLD_CAD) ∧
    (∀ rb ub a1 : ℚ, 0 ≤ rb → rb ≤ 10 ^ 6 → 0 ≤ ub → ub ≤ 10 ^ 6 → 0 ≤ a1 →
      edge2 rb ub a1 SENTINEL_ASK < ARB_THRESHOLD_CAD) := by
  refine ⟨rfl, fun asks => rfl, fun bids => ?_, ?_, ?_, ?_, ?_⟩
  · cases bids <;> rfl
  · intro b1 b2 ua h1 h2 h3
    simp only [edge1, SENTINEL_ASK, ARB_THRESHOLD_CAD]
    nlinarith
  · intro b1 b2 ra h1 h2 h3
    simp only [edge1, SENTINEL_ASK, ARB_THRESHOLD_CAD]
    nlinarith
  · intro rb ub a2 h0 h1 h2 h3 h4
    have key : rb * ub ≤ 10 ^ 6 * 10 ^ 6 := mul_le_mul h1 h3 h2 (by norm_num)
    simp only [edge2, SENTINEL_ASK, ARB_THRESHOLD_CAD]
    nlinarith
  · intro rb ub a1 h0 h1 h2 h3 h4
    have key : rb * ub ≤ 10 ^ 6 * 10 ^ 6 := mul_le_mul h1 h3 h2 (by norm_num)
    simp only [edge2, SENTINEL_ASK, ARB_THRESHOLD_CAD]
    nlinarith

/-- C8 witness: the suppression clause of the amended theorem applied to
a concrete sentinel quote set. -/
theorem C8_sentinel_suppression_witness :
    edge1 5 5 SENTINEL_ASK 1 < ARB_THRESHOLD_CAD :=
  C8_sentinel_suppression.2.2.2.1 5 5 1 (by norm_num) (by norm_num)
    (by norm_num)

/-- Ticker strings of the venue response. -/
def sBULL : String := "BULL"

def sBEAR : String := "BEAR"

def sRITC : String := "RITC"

def sUSD : String := "USD"

def sCAD : String := "CAD"

/-- Dictionary insertion with Python dict overwrite semantics (later
duplicate keys in the response overwrite earlier ones). -/
def dictInsert (m : List (String × ℤ)) (k : String) (v : ℤ) :
    List (String × ℤ) :=
  match m with
  | [] => [(k, v)]
  | (k1, v1) :: t => if k1 = k then (k, v) :: t else (k1, v1) :: dictInsert t k v

/-- The dict comprehension of `positions_map`. -/
def dictOf (ps : List (String × ℤ)) : List (String × ℤ) :=
  ps.foldl (fun m p => dictInsert m p.1 p.2) []

/-- `out.setdefault(k, v)`: add `(k, v)` only if `k` is absent. -/
def setdefault (m : List (String × ℤ)) (k : String) (v : ℤ) :
    List (String × ℤ) :=
  if (m.lookup k).isSome then m else m ++ [(k, v)]

/-- The five tracked tickers of the `setdefault` loop. -/
def TRACKED : List String := [sBULL, sBEAR, sRITC, sUSD, sCAD]

/-- `positions_map()` of `new_base.py:62-71` (identical in
`new_ver4.py:65-74`, `etf_ver3.py`, `etf_ver4.py`): a failed or erroring
request returns the EMPTY dict `{}`; a successful one returns the
response dict with zero `setdefault`s for the five tracked tickers. -/
def positions_map (resp : Option (List (String × ℤ))) : List (String × ℤ) :=
  match resp with
  | none => []
  | some ps => TRACKED.foldl (fun m k => setdefault m k 0) (dictOf ps)

theorem lookup_append_left (m l : List (String × ℤ)) (k : String)
    (h : (m.lookup k).isSome) : (m ++ l).lookup k = m.lookup k := by
  induction m with
  | nil => simp [List.lookup] at h
  | cons p t ih =>
    rcases p with ⟨k1, v1⟩
    by_cases hk : k = k1
    · simp [List.lookup, hk]
    · simp only [List.cons_append, List.lookup, beq_eq_false_iff_ne.mpr hk] at h ⊢
      exact ih h

theorem lookup_append_right (m l : List (String × ℤ)) (k : String)
    (h : m.lookup k = none) : (m ++ l).lookup k = l.lookup k := by
  induction m with
  | nil => simp
  | cons p t ih =>
    rcases p with ⟨k1, v1⟩
    by_cases hk : k = k1
    · simp [List.lookup, hk] at h
    · simp only [List.cons_append, List.lookup, beq_eq_false_iff_ne.mpr hk] at h ⊢
      exact ih h

theorem setdefault_lookup_self (m : List (String × ℤ)) (k : String) :
    ((setdefault m k 0).lookup k).isSome := by
  unfold setdefault
  by_cases h : (m.lookup k).isSome
  · rw [if_pos h]; exact h
  · rw [if_neg h]
    have hn : m.lookup k = none := Option.not_isSome_iff_eq_none.mp h
    rw [lookup_append_right m _ k hn]
    simp [List.lookup]

theorem setdefault_lookup_preserve (m : List (String × ℤ)) (k k2 : String)
    (v : ℤ) (h : (m.lookup k2).isSome) :
    (setdefault m k v).lookup k2 = m.lookup k2 := by
  unfold setdefault
  split_ifs with h1
  · rfl
  · exact lookup_append_left m _ k2 h

theorem setdefault_lookup_none_ne (m : List (String × ℤ)) (k k2 : String)
    (v : ℤ) (hne : k2 ≠ k) (h : m.lookup k2 = none) :
    (setdefault m k v).lookup k2 = none := by
  unfold setdefault
  split_ifs with h1
  · exact h
  · rw [lookup_append_right m _ k2 h]
    simp [List.lookup, beq_eq_false_iff_ne.mpr hne]

theorem setdefault_lookup_none_self (m : List (String × ℤ)) (k : String) :
    m.lookup k = none → (setdefault m k 0).lookup k = some 0 := by
  intro h
  unfold setdefault
  rw [if_neg (by simp [h])]
  rw [lookup_append_right m _ k h]
  simp [List.lookup]

theorem foldl_setdefault_isSome (ks : List String) :
    ∀ m : List (String × ℤ), ∀ k : String,
      (k ∈ ks ∨ (m.lookup k).isSome) →
      ((ks.foldl (fun m2 k2 => setdefault m2 k2 0) m).lookup k).isSome := by
  induction ks with
  | nil =>
    intro m k hk
    rcases hk with hk | hk
    · simp at hk
    · simpa using hk
  | cons k1 t ih =>
    intro m k hk
    simp only [List.foldl_cons]
    apply ih
    rcases hk with hk | hsome
    · rcases List.mem_cons.mp hk with rfl | hmem
      · right; exact setdefault_lookup_self m k
      · left; exact hmem
    · right
      rw [setdefault_lookup_preserve m k1 k 0 hsome]
      exact hsome

theorem foldl_setdefault_preserve (ks : List String) :
    ∀ m : List (String × ℤ), ∀ k : String, ∀ v : ℤ,
      m.lookup k = some v →
      (ks.foldl (fun m2 k2 => setdefault m2 k2 0) m).lookup k = some v := by
  induction ks with
  | nil => intro m k v h; simpa using h
  | cons k1 t ih =>
    intro m k v h
    simp only [List.foldl_cons]
    apply ih
    rw [setdefault_lookup_preserve m k1 k 0 (by simp [h])]
    exact h

theorem foldl_setdefault_zero (ks : List String) :
    ∀ m : List (String × ℤ), ∀ k : String, k ∈ ks → m.lookup k = none →
      (ks.foldl (fun m2 k2 => setdefault m2 k2 0) m).lookup k = some 0 := by
  induction ks with
  | nil => intro m k hk; simp at hk
  | cons k1 t ih =>
    intro m k hk hnone
    simp only [List.foldl_cons]
    by_cases he : k = k1
    · subst he
      exact foldl_setdefault_preserve t _ k 0
        (setdefault_lookup_none_self m k hnone)
    · rcases List.mem_cons.mp hk with h | hmem
      · exact absurd h he
      · exact ih _ k hmem (setdefault_lookup_none_ne m k1 k 0 he hnone)

theorem dictInsert_lookup_ne (m : List (String × ℤ)) (k : String) (v : ℤ)
    (k2 : String) (hne : k2 ≠ k) :
    (dictInsert m k v).lookup k2 = m.lookup k2 := by
  induction m with
  | nil => simp [dictInsert, List.lookup, beq_eq_false_iff_ne.mpr hne]
  | cons p t ih =>
    rcases p with ⟨k1, v1⟩
    simp only [dictInsert]
    by_cases h1 : k1 = k
    · rw [if_pos h1]
      simp only [List.lookup, beq_eq_false_iff_ne.mpr hne,
        beq_eq_false_iff_ne.mpr (h1 ▸ hne)]
    · rw [if_neg h1]
      by_cases h2 : k2 = k1
      · simp [List.lookup, h2]
      · simp only [List.lookup, beq_eq_false_iff_ne.mpr h2]
        exact ih

theorem foldl_dictInsert_none (ps : List (String × ℤ)) :
    ∀ m : List (String × ℤ), ∀ k : String, (∀ p ∈ ps, p.1 ≠ k) →
      m.lookup k = none →
      (ps.foldl (fun m2 p => dictInsert m2 p.1 p.2) m).lookup k = none := by
  induction ps with
  | nil => intro m k _ hm; simpa using hm
  | cons p t ih =>
    intro m k habs hm
    simp only [List.foldl_cons]
    apply ih
    · intro q hq
      exact habs q (List.mem_cons_of_mem p hq)
    · rw [dictInsert_lookup_ne m p.1 p.2 k
        (fun he => habs p (List.mem_cons_self p t) (he ▸ rfl))]
      exact hm

/-- C9 counterexample: when the venue call fails, `positions_map` returns
the EMPTY dict, in which the tracked instrument BULL has no entry at all —
not a zero default — so downstream `pos[BULL]` arithmetic would hit an
undefined entry (the callers guard with `if not pos` instead). -/
theorem C9_counterexample :
    positions_map none = [] ∧ (positions_map none).lookup sBULL = none :=
  ⟨rfl, rfl⟩

/-- C9 (amended): on a SUCCESSFUL venue call the returned map is complete
for every tracked instrument — any ticker missing from the response is
bound to the zero default — while on a failed call `positions_map`
returns the empty map, which callers detect and treat as no-data. -/
theorem C9_positions_map_complete :
    (∀ ps : List (String × ℤ), ∀ k : String, k ∈ TRACKED →
      ((positions_map (some ps)).lookup k).isSome) ∧
    (∀ ps : List (String × ℤ), ∀ k : String, k ∈ TRACKED →
      (∀ p ∈ ps, p.1 ≠ k) → (positions_map (some ps)).lookup k = some 0) ∧
    positions_map none = [] := by
  refine ⟨?_, ?_, rfl⟩
  · intro ps k hk
    exact foldl_setdefault_isSome TRACKED (dictOf ps) k (Or.inl hk)
  · intro ps k hk habs
    exact foldl_setdefault_zero TRACKED (dictOf ps) k hk
      (foldl_dictInsert_none ps [] k habs rfl)

/-- C9 witness: a response holding only a RITC entry still yields a map
binding BULL to the zero default. -/
theorem C9_positions_map_complete_witness :
    (positions_map (some [(sRITC, 100)])).lookup sBULL = some 0 :=
  C9_positions_map_complete.2.1 [(sRITC, 100)] sBULL (by decide) (by decide)

/-- `place_mkt(ticker, action, qty)` of `etf_ver4.py:82-89`: the guard
`if qty <= 0: return False` fires before any POST; otherwise the order is
posted with quantity `int(qty)` (truncation = floor for positive `qty`)
and the venue outcome `venue_ok` is returned.  The second component lists
the orders actually submitted. -/
def place_mkt (ticker : Ticker) (action : Side) (qty : ℚ) (venue_ok : Bool) :
    Bool × List Order :=
  if qty ≤ 0 then (false, [])
  else (venue_ok, [⟨ticker, action, ⌊qty⌋, none⟩])

/-- `place_limit(ticker, action, qty, price)` of `etf_ver4.py:91-96`:
same guard, posts a LIMIT order carrying the price. -/
def place_limit (ticker : Ticker) (action : Side) (qty : ℚ) (price : ℚ)
    (venue_ok : Bool) : Bool × List Order :=
  if qty ≤ 0 then (false, [])
  else (venue_ok, [⟨ticker, action, ⌊qty⌋, some price⟩])

/-- C10: with a non-positive quantity both order placers return `False`
and submit nothing to the venue, regardless of instrument, side, price
and venue behaviour. -/
theorem C10_nonpositive_qty_guard (t : Ticker) (a : Side) (q p : ℚ)
    (ok : Bool) (hq : q ≤ 0) :
    place_mkt t a q ok = (false, []) ∧
    place_limit t a q p ok = (false, []) := by
  unfold place_mkt place_limit
  rw [if_pos hq, if_pos hq]
  exact ⟨rfl, rfl⟩

/-- C10 witness: the theorem at quantity 0 (and at a RITC BUY with price
5 for the limit order). -/
theorem C10_nonpositive_qty_guard_witness :
    place_mkt Ticker.RITC Side.BUY 0 true = (false, []) ∧
    place_limit Ticker.RITC Side.BUY 0 5 true = (false, []) :=
  C10_nonpositive_qty_guard Ticker.RITC Side.BUY 0 5 true (le_refl 0)

end RITC
